import Mathlib

/-
Verification of the snapshot-delta analyzer of the fpl-price-changes
repository (src/analyze_transfers.py, with the snapshot collector
src/track_transfers.py as the writer of the store).

Embedding conventions:
- CSV tables are lists of records; the timestamp column is a string.
- The source's float arithmetic is modelled with exact rationals (ℚ).  All
  quantities the claims inspect (signs, zeroes, the concrete scenario values,
  orderings) coincide with the IEEE-754 evaluation of the source on those
  inputs; `roundDec` models the tabular library's `round(decimals)`, which
  scales by 10^d, rounds half to even, and divides back.
- NaN cells (absent left-join partners) are modelled as `none`.
- The two snapshot timestamps are compared and sorted with the code-point
  lexicographic string order, as the source's sort does; `pandas.to_datetime`
  is modelled by `parseTs` for the store's timestamp format (the fixed
  "YYYY-MM-DD HH:MM:SS" layout, optionally followed by an all-zero
  fractional-second suffix, which that parser accepts and which denotes the
  same instant).
- Rational division by zero is the usual mathematical convention (0); no
  theorem below inspects a rate computed over a zero-length interval.
- Exceptions abort the script before any output file is written (the only
  raise is at line 36, before all writes), so a run is an `Except` value and
  the file effects happen only in the `ok` branch.
-/

attribute [local semireducible] Rat.add Rat.sub Rat.mul Rat.inv Rat.ofScientific

namespace FPL

/-! ## Timestamp strings and their parsing -/

/-- Numeric value of a decimal digit character. -/
def digitVal (c : Char) : ℕ := c.toNat - 48

/-- Parse one decimal digit from a character list. -/
def pDigit : List Char → Option (ℕ × List Char)
  | c :: rest => if c.isDigit then some (digitVal c, rest) else none
  | [] => none

/-- Parse two decimal digits as a two-digit number. -/
def pD2 (l : List Char) : Option (ℕ × List Char) :=
  (pDigit l).bind fun p1 => (pDigit p1.2).bind fun p2 => some (10 * p1.1 + p2.1, p2.2)

/-- Parse four decimal digits as a four-digit number. -/
def pD4 (l : List Char) : Option (ℕ × List Char) :=
  (pD2 l).bind fun p1 => (pD2 p1.2).bind fun p2 => some (100 * p1.1 + p2.1, p2.2)

/-- Consume one expected separator character. -/
def pSep (c : Char) : List Char → Option (List Char)
  | a :: rest => if a = c then some rest else none
  | [] => none

/-- Calendar fields of a parsed timestamp. -/
structure TsFields where
  year : ℕ
  month : ℕ
  day : ℕ
  hour : ℕ
  minute : ℕ
  second : ℕ
deriving DecidableEq, Repr

/-- Gregorian leap-year test (proleptic Gregorian calendar, as used by the
source's datetime library). -/
def isLeap (y : ℕ) : Bool := (y % 4 == 0 && y % 100 != 0) || y % 400 == 0

/-- Length of a month (months are numbered 1-12). -/
def daysInMonth (leap : Bool) : ℕ → ℕ
  | 1 => 31
  | 2 => if leap then 29 else 28
  | 3 => 31
  | 4 => 30
  | 5 => 31
  | 6 => 30
  | 7 => 31
  | 8 => 31
  | 9 => 30
  | 10 => 31
  | 11 => 30
  | 12 => 31
  | _ => 0

/-- Days from the start of month 1 to the start of month m of the same year. -/
def daysBeforeMonth (leap : Bool) : ℕ → ℕ
  | 0 => 0
  | 1 => 0
  | m + 2 => daysBeforeMonth leap (m + 1) + daysInMonth leap (m + 1)

/-- Days from 0001-01-01 to the start of year y (for y ≥ 1). -/
def daysBeforeYear (y : ℕ) : ℕ :=
  365 * (y - 1) + (y - 1) / 4 + (y - 1) / 400 - (y - 1) / 100

/-- Day index of a date, with 0001-01-01 as day 0. -/
def toDays (f : TsFields) : ℕ :=
  daysBeforeYear f.year + daysBeforeMonth (isLeap f.year) f.month + (f.day - 1)

/-- Instant of a timestamp in seconds since 0001-01-01 00:00:00. -/
def tsSecs (f : TsFields) : ℕ :=
  (toDays f * 24 + f.hour) * 3600 + f.minute * 60 + f.second

/-- Calendar validity of parsed fields: exactly the field ranges the source's
datetime parser accepts for this layout. -/
def boundsOK (f : TsFields) : Bool :=
  1 ≤ f.year && f.year ≤ 9999 && 1 ≤ f.month && f.month ≤ 12 &&
  1 ≤ f.day && f.day ≤ daysInMonth (isLeap f.year) f.month &&
  f.hour < 24 && f.minute < 60 && f.second < 60

/-- Empty remainder, or an all-zero fractional-second suffix ".0", ".00", ...
(the source's datetime parser accepts these; they denote the same instant). -/
def fracOK : List Char → Bool
  | [] => true
  | c :: zs => c = '.' && !zs.isEmpty && zs.all (· = '0')

/-- Structural parse of a timestamp body "YYYY-MM-DD HH:MM:SS" returning the
fields and the unconsumed remainder. -/
def parseBody (l : List Char) : Option (TsFields × List Char) :=
  (pD4 l).bind fun py =>
  (pSep '-' py.2).bind fun l2 =>
  (pD2 l2).bind fun pmo =>
  (pSep '-' pmo.2).bind fun l4 =>
  (pD2 l4).bind fun pd =>
  (pSep ' ' pd.2).bind fun l6 =>
  (pD2 l6).bind fun ph =>
  (pSep ':' ph.2).bind fun l8 =>
  (pD2 l8).bind fun pmi =>
  (pSep ':' pmi.2).bind fun l10 =>
  (pD2 l10).bind fun ps =>
  some (⟨py.1, pmo.1, pd.1, ph.1, pmi.1, ps.1⟩, ps.2)

/-- Parse a timestamp string as the source's datetime parser does for the
store's timestamp layout. -/
def parseTs (t : String) : Option TsFields :=
  match parseBody t.data with
  | some (f, rest) => if boundsOK f && fracOK rest then some f else none
  | none => none

/-- Instant of a timestamp string, in seconds. -/
def parseSecs (t : String) : Option ℕ := (parseTs t).map tsSecs

/-- Strict canonical store format: exactly "YYYY-MM-DD HH:MM:SS", valid. -/
def isCanonicalTs (t : String) : Bool :=
  match parseBody t.data with
  | some (f, rest) => boundsOK f && rest.isEmpty
  | none => false

/-- Chronological strict order of two timestamp strings: both parse, and the
first denotes the earlier instant. -/
def chronLt (s t : String) : Prop :=
  ∃ a b, parseSecs s = some a ∧ parseSecs t = some b ∧ a < b

/-- Chronological weak order of two timestamp strings. -/
def chronLe (s t : String) : Prop :=
  ∃ a b, parseSecs s = some a ∧ parseSecs t = some b ∧ a ≤ b

/-- Lexicographic code-point comparison of strings: the order the source's
string sort uses on the timestamp column. -/
def tsLt (s t : String) : Prop := s.data < t.data

/-- The weak version of `tsLt`, used as the sorting relation. -/
def tsLe (s t : String) : Prop := ¬ tsLt t s

instance : DecidableRel tsLt := fun s t => inferInstanceAs (Decidable (s.data < t.data))

instance : DecidableRel tsLe := fun s t => inferInstanceAs (Decidable (¬ tsLt t s))

instance : IsTotal String tsLe :=
  ⟨fun s t => (le_total s.data t.data).imp (fun h => not_lt.mpr h) (fun h => not_lt.mpr h)⟩

instance : IsTrans String tsLe :=
  ⟨fun _ _ _ h1 h2 => not_lt.mpr (le_trans (not_lt.mp h1) (not_lt.mp h2))⟩

/-! ## Rounding

`Series.round(d)` of the source's tabular library scales by 10^d, rounds to
the nearest integer with ties to even, and divides back. -/

/-- Floor of a rational, computed from its reduced fraction. -/
def qfloor (q : ℚ) : ℤ := Int.fdiv q.num q.den

/-- Round to the nearest integer, ties to even. -/
def rint (q : ℚ) : ℤ :=
  let f : ℤ := qfloor q
  if q - (f : ℚ) < 1/2 then f
  else if (1 : ℚ)/2 < q - (f : ℚ) then f + 1
  else if f % 2 = 0 then f else f + 1

/-- Round to d decimal places, ties to even. -/
def roundDec (d : ℕ) (q : ℚ) : ℚ := ((rint (q * (10 : ℚ) ^ d) : ℚ)) / (10 : ℚ) ^ d

/-! ## Data model -/

/-- One Snapshot Store row (a line of fpl_transfers_log.csv; the columns
written by track_transfers.py). -/
structure Row where
  timestamp : String
  id : ℕ
  first_name : String
  second_name : String
  now_cost : ℚ
  transfers_in_event : ℤ
  transfers_out_event : ℤ
  selected_by_percent : ℚ
deriving DecidableEq, Repr

/-- The Snapshot Store: the full transfer log, in file order. -/
abbrev Store := List Row

/-- One row of the merged frame (source lines 47-77): the t_new fields that
later stages read, the left-join partner from the t_old slice (none when the
id is absent there, i.e. the NaN case), and the derived columns. -/
structure Joined where
  id : ℕ
  name : String
  now_cost : ℚ
  old : Option Row
  delta_in : Option ℤ
  delta_out : Option ℤ
  net_delta : Option ℤ
  delta_in_per_hr : Option ℚ
  delta_out_per_hr : Option ℚ
  net_delta_per_hr : Option ℚ
  rise_progress : Option ℚ
  drop_progress : Option ℚ
deriving DecidableEq, Repr

/-- NaN-propagating binary lift (a NaN operand yields a NaN result in the
source's tabular arithmetic). -/
def omap2 {α β γ : Type} (f : α → β → γ) : Option α → Option β → Option γ
  | some a, some b => some (f a b)
  | _, _ => none

/-- The fixed net-transfer threshold of the source (line 27). -/
def THRESHOLD : ℚ := 100000

/-- Build one merged row for the t_new row r2 (source lines 47-77): look up
r2's id in the t_old slice, take raw deltas, normalize by hours elapsed, clip
and scale into the two progress columns, and rebuild the display fields. -/
def mkJoined (hrs : ℚ) (df1 : List Row) (r2 : Row) : Joined :=
  let old := df1.find? (fun r1 => r1.id == r2.id)
  let delta_in := old.map (fun r1 => r2.transfers_in_event - r1.transfers_in_event)
  let delta_out := old.map (fun r1 => r2.transfers_out_event - r1.transfers_out_event)
  let net_delta := omap2 (· - ·) delta_in delta_out
  let delta_in_per_hr := delta_in.map (fun d => (d : ℚ) / hrs)
  let delta_out_per_hr := delta_out.map (fun d => (d : ℚ) / hrs)
  let net_delta_per_hr := net_delta.map (fun d => (d : ℚ) / hrs)
  { id := r2.id
    name := r2.first_name ++ " " ++ r2.second_name
    now_cost := r2.now_cost
    old := old
    delta_in := delta_in
    delta_out := delta_out
    net_delta := net_delta
    delta_in_per_hr := delta_in_per_hr
    delta_out_per_hr := delta_out_per_hr
    net_delta_per_hr := net_delta_per_hr
    rise_progress := net_delta_per_hr.map (fun q => roundDec 2 (max 0 q / THRESHOLD))
    drop_progress := net_delta_per_hr.map (fun q => roundDec 2 (max 0 (-q) / THRESHOLD)) }

/-! ## Ranking -/

/-- Sort key for the riser ranking; only applied to rows whose rise_progress
is present (NaN rows are dropped by nlargest beforehand). -/
def riseKey (j : Joined) : ℚ := j.rise_progress.getD 0

/-- Descending comparison by rise_progress. -/
def riseGe (a b : Joined) : Prop := riseKey b ≤ riseKey a

/-- Sort key for the faller ranking. -/
def dropKey (j : Joined) : ℚ := j.drop_progress.getD 0

/-- Descending comparison by drop_progress. -/
def dropGe (a b : Joined) : Prop := dropKey b ≤ dropKey a

instance : DecidableRel riseGe := fun a b => inferInstanceAs (Decidable (riseKey b ≤ riseKey a))

instance : DecidableRel dropGe := fun a b => inferInstanceAs (Decidable (dropKey b ≤ dropKey a))

instance : IsTotal Joined riseGe := ⟨fun a b => le_total (riseKey b) (riseKey a)⟩

instance : IsTrans Joined riseGe := ⟨fun _ _ _ h1 h2 => le_trans h2 h1⟩

instance : IsTotal Joined dropGe := ⟨fun a b => le_total (dropKey b) (dropKey a)⟩

instance : IsTrans Joined dropGe := ⟨fun _ _ _ h1 h2 => le_trans h2 h1⟩

/-- DataFrame.nlargest(n, column): rows whose column is NaN are excluded, the
rest are ordered descending by the column, and the first n are taken. -/
def nlargestBy (key : Joined → Option ℚ) (ge : Joined → Joined → Prop) [DecidableRel ge]
    (n : ℕ) (l : List Joined) : List Joined :=
  (List.insertionSort ge (l.filter (fun j => (key j).isSome))).take n

/-- Top 10 rising candidates (source lines 80-82). -/
def top_risers (merged : List Joined) : List Joined :=
  nlargestBy Joined.rise_progress riseGe 10 merged

/-- Top 10 falling candidates (source lines 83-85). -/
def top_droppers (merged : List Joined) : List Joined :=
  nlargestBy Joined.drop_progress dropGe 10 merged

/-! ## Prediction log and summary -/

/-- One row of the prediction log (fpl_predictions_log.csv).  After the
concat of risers and fallers, a riser row's drop_progress cell and a faller
row's rise_progress cell are NaN (none). -/
structure PredRow where
  name : String
  now_cost : ℚ
  net_delta_per_hr : Option ℚ
  rise_progress : Option ℚ
  drop_progress : Option ℚ
  timestamp : String
  type : String
deriving DecidableEq, Repr

/-- A riser row of the prediction log (source lines 94-96). -/
def mkRiser (ts : String) (j : Joined) : PredRow :=
  { name := j.name
    now_cost := j.now_cost
    net_delta_per_hr := j.net_delta_per_hr
    rise_progress := j.rise_progress
    drop_progress := none
    timestamp := ts
    type := "riser" }

/-- A faller row of the prediction log (source lines 98-99). -/
def mkFaller (ts : String) (j : Joined) : PredRow :=
  { name := j.name
    now_cost := j.now_cost
    net_delta_per_hr := j.net_delta_per_hr
    rise_progress := none
    drop_progress := j.drop_progress
    timestamp := ts
    type := "faller" }

/-- The combined predictions of one run (source line 102). -/
def predictionsOf (ts : String) (merged : List Joined) : List PredRow :=
  (top_risers merged).map (mkRiser ts) ++ (top_droppers merged).map (mkFaller ts)

/-- One row of the summary file (fpl_summary.csv). -/
structure SumRow where
  name : String
  price : ℚ
  hourly_change : Option ℚ
  progress : ℚ
  timestamp : String
deriving DecidableEq, Repr

/-- Project one prediction row into a summary row (source lines 114-128):
signed progress is rise minus drop with NaN filled by 0. -/
def toSumRow (p : PredRow) : SumRow :=
  { name := p.name
    price := p.now_cost
    hourly_change := p.net_delta_per_hr
    progress := p.rise_progress.getD 0 - p.drop_progress.getD 0
    timestamp := p.timestamp }

/-- Descending comparison by absolute signed progress. -/
def absGe (a b : SumRow) : Prop := |b.progress| ≤ |a.progress|

instance : DecidableRel absGe := fun a b => inferInstanceAs (Decidable (|b.progress| ≤ |a.progress|))

instance : IsTotal SumRow absGe := ⟨fun a b => le_total |b.progress| |a.progress|⟩

instance : IsTrans SumRow absGe := ⟨fun _ _ _ h1 h2 => le_trans h2 h1⟩

/-- Final per-row rounding of the summary (source lines 135-137). -/
def roundSumRow (s : SumRow) : SumRow :=
  { s with price := roundDec 1 s.price
           hourly_change := s.hourly_change.map (roundDec 0)
           progress := roundDec 2 s.progress }

/-- The summary of one run (source lines 114-137): this run's predictions,
ordered by absolute signed progress descending, first 20, then rounded. -/
def summaryOf (preds : List PredRow) : List SumRow :=
  ((List.insertionSort absGe (preds.map toSumRow)).take 20).map roundSumRow

/-! ## The analyzer run -/

/-- Failures of a run.  `insufficientHistory` is the explicit raise at source
line 36; `timestampParseFailure` is the datetime library rejecting a
timestamp string (source lines 60-61). -/
inductive AnalyzeError
  | insufficientHistory
  | timestampParseFailure
deriving DecidableEq, Repr

/-- Everything one successful run computes. -/
structure RunOut where
  t_old : String
  t_new : String
  hours_elapsed : ℚ
  merged : List Joined
  predictions : List PredRow
  summary : List SumRow
deriving DecidableEq, Repr

/-- The distinct timestamps of the store, sorted ascending by the string
order (source lines 33-34). -/
def latest_times (df : Store) : List String :=
  List.insertionSort tsLe (df.map Row.timestamp).dedup

/-- The slice of the store at one timestamp (source lines 43-44). -/
def sliceAt (df : Store) (t : String) : List Row :=
  df.filter (fun r => r.timestamp == t)

/-- The two selected snapshots of a run, if any: the last two entries of the
ascending sort of the distinct timestamps (source lines 33-39). -/
def selectPair (df : Store) : Option (String × String) :=
  let lt := latest_times df
  if lt.length < 2 then none
  else some (lt.getD (lt.length - 2) "", lt.getD (lt.length - 1) "")

/-- The in-memory results of a run over the selected pair (t1, t2) whose
instants are k1 and k2 seconds (source lines 43-137). -/
def analyzeAt (df : Store) (runTs t1 t2 : String) (k1 k2 : ℕ) : RunOut :=
  let hrs : ℚ := ((k2 : ℚ) - (k1 : ℚ)) / 3600
  let merged := (sliceAt df t2).map (mkJoined hrs (sliceAt df t1))
  let preds := predictionsOf runTs merged
  { t_old := t1
    t_new := t2
    hours_elapsed := hrs
    merged := merged
    predictions := preds
    summary := summaryOf preds }

/-- One analyzer run over the store (source lines 30-137), with the run
timestamp (line 94's wall clock) passed in as an input. -/
def analyze (df : Store) (runTs : String) : Except AnalyzeError RunOut :=
  match selectPair df with
  | none => .error .insufficientHistory
  | some (t1, t2) =>
    match parseSecs t1 with
    | none => .error .timestampParseFailure
    | some k1 =>
      match parseSecs t2 with
      | none => .error .timestampParseFailure
      | some k2 => .ok (analyzeAt df runTs t1 t2 k1 k2)

/-- The analyzer's two output files.  none models a file that does not
exist. -/
structure FileState where
  predLog : Option (List PredRow)
  summaryFile : Option (List SumRow)
deriving DecidableEq, Repr

/-- File effects of one run (source lines 104-141): on success the prediction
log is appended to (or created) and the summary file overwritten; on error
the script aborts before any write. -/
def runAnalyzer (df : Store) (runTs : String) (fs : FileState) :
    Except AnalyzeError FileState :=
  match analyze df runTs with
  | .error e => .error e
  | .ok out => .ok { predLog := some (fs.predLog.getD [] ++ out.predictions)
                     summaryFile := some out.summary }

/-- The file state after a run: unchanged when the run fails. -/
def runFS (df : Store) (runTs : String) (fs : FileState) : FileState :=
  match runAnalyzer df runTs fs with
  | .ok fs2 => fs2
  | .error _ => fs

/-! ## Auxiliary definitions used by the development -/

/-- Lexicographic comparison of two parsed timestamps field by field: the
chronological order of valid calendar fields. -/
def fieldLex (f g : TsFields) : Prop :=
  f.year < g.year ∨ (f.year = g.year ∧ (f.month < g.month ∨ (f.month = g.month ∧
    (f.day < g.day ∨ (f.day = g.day ∧ (f.hour < g.hour ∨ (f.hour = g.hour ∧
      (f.minute < g.minute ∨ (f.minute = g.minute ∧ f.second < g.second)))))))))

/-- Replace the run timestamp of a prediction row. -/
def retimeP (ts : String) (p : PredRow) : PredRow := { p with timestamp := ts }

/-- Replace the run timestamp of a summary row. -/
def retimeS (ts : String) (s : SumRow) : SumRow := { s with timestamp := ts }

/-- Blank out the run timestamp of a summary row. -/
def eraseTsS (s : SumRow) : SumRow := { s with timestamp := "" }

/-- A fixture store row. -/
def fxRow (t : String) (i : ℕ) (fn sn : String) (tin tout : ℤ) : Row :=
  { timestamp := t
    id := i
    first_name := fn
    second_name := sn
    now_cost := 5
    transfers_in_event := tin
    transfers_out_event := tout
    selected_by_percent := 1 }

/-- A junk run result, used only to totalize `outOf`. -/
def dummyRun : RunOut :=
  { t_old := ""
    t_new := ""
    hours_elapsed := 0
    merged := []
    predictions := []
    summary := [] }

/-- Extract the result of a run known to succeed. -/
def outOf (e : Except AnalyzeError RunOut) : RunOut :=
  match e with
  | .ok o => o
  | .error _ => dummyRun

/-- A junk merged row, used only as a list-indexing default. -/
def dummyJoined : Joined :=
  { id := 0
    name := ""
    now_cost := 0
    old := none
    delta_in := none
    delta_out := none
    net_delta := none
    delta_in_per_hr := none
    delta_out_per_hr := none
    net_delta_per_hr := none
    rise_progress := none
    drop_progress := none }

def t10 : String := "2025-08-01 10:00:00"

def t11 : String := "2025-08-01 11:00:00"

/-- The store of claim C8's scenario: entity 1 gains 500 transfers in over one
hour with transfers out unchanged. -/
def dfPos : Store := [fxRow t10 1 "Mo" "Salah" 1000 200, fxRow t11 1 "Mo" "Salah" 1500 200]

def outPos : RunOut := outOf (analyze dfPos "2025-08-01 11:00:30")

def jPos : Joined := outPos.merged.getD 0 dummyJoined

def df3 : Store := [fxRow t10 1 "Ab" "Cd" 3 4]

def dfSame : Store :=
  [fxRow t10 1 "Aa" "Bb" 100 50, fxRow t10 2 "Cc" "Dd" 7 9,
   fxRow t11 1 "Aa" "Bb" 100 50, fxRow t11 2 "Cc" "Dd" 7 9]

def outSame : RunOut := outOf (analyze dfSame "x")

def jSame : Joined := outSame.merged.getD 0 dummyJoined

/-- A store with entity 1 at both snapshots, entity 3 only at t_old and
entity 2 only at t_new. -/
def df1x : Store :=
  [fxRow t10 1 "Aa" "Bb" 10 20, fxRow t10 3 "Ee" "Ff" 1 2,
   fxRow t11 1 "Aa" "Bb" 30 40, fxRow t11 2 "Cc" "Dd" 5 6]

def out1x : RunOut := outOf (analyze df1x "x")

/-- A store whose single entity has unchanged counters across the two
snapshots. -/
def dfZero : Store := [fxRow t10 1 "Zz" "Yy" 10 20, fxRow t11 1 "Zz" "Yy" 10 20]

def outZero : RunOut := outOf (analyze dfZero "2025-08-01 12:00:00")

def jZero : Joined := outZero.merged.getD 0 dummyJoined

def tA : String := "2025-01-01 00:00:00"

/-- The same instant as `tA`, written with a zero fractional-second suffix:
a distinct string the source's datetime parser maps to the same instant. -/
def tB : String := "2025-01-01 00:00:00.0"

/-- A store whose two distinct timestamp strings denote the same instant. -/
def df2x : Store := [fxRow tA 1 "Aa" "Bb" 0 0, fxRow tB 1 "Aa" "Bb" 100 0]

def out2x : RunOut := outOf (analyze df2x "x")

def t12 : String := "2025-08-01 12:00:00"

/-- A store with three canonical timestamps for the selector claim. -/
def df9 : Store :=
  [fxRow t10 1 "Aa" "Bb" 1 1, fxRow t12 1 "Aa" "Bb" 9 9, fxRow t11 1 "Aa" "Bb" 4 4]

/-! ## Basic lemmas about the embedded operations -/

theorem rint_zero : rint 0 = 0 := by decide

theorem roundDec_zero (d : ℕ) : roundDec d 0 = 0 := by
  simp [roundDec, rint_zero]

/-- Inversion of a successful run. -/
theorem analyze_ok_elim {df : Store} {ts : String} {out : RunOut}
    (h : analyze df ts = .ok out) :
    ∃ t1 t2 k1 k2, selectPair df = some (t1, t2) ∧ parseSecs t1 = some k1 ∧
      parseSecs t2 = some k2 ∧ out = analyzeAt df ts t1 t2 k1 k2 := by
  unfold analyze at h
  split at h
  · exact absurd h (by simp)
  next t1 t2 heq =>
    split at h
    · exact absurd h (by simp)
    next k1 hp1 =>
      split at h
      · exact absurd h (by simp)
      next k2 hp2 =>
        exact ⟨t1, t2, k1, k2, heq, hp1, hp2, (Except.ok.inj h).symm⟩

theorem analyzeAt_t_old (df : Store) (ts t1 t2 : String) (k1 k2 : ℕ) :
    (analyzeAt df ts t1 t2 k1 k2).t_old = t1 := rfl

theorem analyzeAt_t_new (df : Store) (ts t1 t2 : String) (k1 k2 : ℕ) :
    (analyzeAt df ts t1 t2 k1 k2).t_new = t2 := rfl

theorem analyzeAt_hours (df : Store) (ts t1 t2 : String) (k1 k2 : ℕ) :
    (analyzeAt df ts t1 t2 k1 k2).hours_elapsed = ((k2 : ℚ) - (k1 : ℚ)) / 3600 := rfl

theorem analyzeAt_merged (df : Store) (ts t1 t2 : String) (k1 k2 : ℕ) :
    (analyzeAt df ts t1 t2 k1 k2).merged =
      (sliceAt df t2).map (mkJoined (((k2 : ℚ) - (k1 : ℚ)) / 3600) (sliceAt df t1)) := rfl

theorem analyzeAt_predictions (df : Store) (ts t1 t2 : String) (k1 k2 : ℕ) :
    (analyzeAt df ts t1 t2 k1 k2).predictions =
      predictionsOf ts ((sliceAt df t2).map (mkJoined (((k2 : ℚ) - (k1 : ℚ)) / 3600)
        (sliceAt df t1))) := rfl

theorem analyzeAt_summary (df : Store) (ts t1 t2 : String) (k1 k2 : ℕ) :
    (analyzeAt df ts t1 t2 k1 k2).summary =
      summaryOf (predictionsOf ts ((sliceAt df t2).map (mkJoined (((k2 : ℚ) - (k1 : ℚ)) / 3600)
        (sliceAt df t1)))) := rfl

/-- Every merged row of a run comes from a t_new slice row. -/
theorem mem_merged_elim {df : Store} {ts t1 t2 : String} {k1 k2 : ℕ} {j : Joined}
    (hj : j ∈ (analyzeAt df ts t1 t2 k1 k2).merged) :
    ∃ r2 ∈ sliceAt df t2, j = mkJoined (((k2 : ℚ) - (k1 : ℚ)) / 3600) (sliceAt df t1) r2 := by
  simp only [analyzeAt, List.mem_map] at hj
  obtain ⟨r2, hr2, rfl⟩ := hj
  exact ⟨r2, hr2, rfl⟩

/-- The progress columns as functions of the net per-hour rate. -/
theorem mkJoined_progress_of_net {hrs : ℚ} {df1 : List Row} {r2 : Row} {q : ℚ}
    (h : (mkJoined hrs df1 r2).net_delta_per_hr = some q) :
    (mkJoined hrs df1 r2).rise_progress = some (roundDec 2 (max 0 q / THRESHOLD)) ∧
    (mkJoined hrs df1 r2).drop_progress = some (roundDec 2 (max 0 (-q) / THRESHOLD)) := by
  have h1 : (mkJoined hrs df1 r2).rise_progress =
      (mkJoined hrs df1 r2).net_delta_per_hr.map (fun q => roundDec 2 (max 0 q / THRESHOLD)) := rfl
  have h2 : (mkJoined hrs df1 r2).drop_progress =
      (mkJoined hrs df1 r2).net_delta_per_hr.map (fun q => roundDec 2 (max 0 (-q) / THRESHOLD)) := rfl
  rw [h1, h2, h]
  exact ⟨rfl, rfl⟩

/-- All derived columns of a merged row whose id was found in the old slice. -/
theorem mkJoined_fields_of_find (hrs : ℚ) {df1 : List Row} {r2 r1 : Row}
    (h : df1.find? (fun r => r.id == r2.id) = some r1) :
    (mkJoined hrs df1 r2).delta_in = some (r2.transfers_in_event - r1.transfers_in_event) ∧
    (mkJoined hrs df1 r2).delta_out = some (r2.transfers_out_event - r1.transfers_out_event) ∧
    (mkJoined hrs df1 r2).net_delta =
      some ((r2.transfers_in_event - r1.transfers_in_event) -
        (r2.transfers_out_event - r1.transfers_out_event)) ∧
    (mkJoined hrs df1 r2).delta_in_per_hr =
      some (((r2.transfers_in_event - r1.transfers_in_event : ℤ) : ℚ) / hrs) ∧
    (mkJoined hrs df1 r2).delta_out_per_hr =
      some (((r2.transfers_out_event - r1.transfers_out_event : ℤ) : ℚ) / hrs) ∧
    (mkJoined hrs df1 r2).net_delta_per_hr =
      some ((((r2.transfers_in_event - r1.transfers_in_event) -
        (r2.transfers_out_event - r1.transfers_out_event) : ℤ) : ℚ) / hrs) := by
  simp [mkJoined, h, omap2]

/-- The rise/drop progress cells are present exactly when the left-join
partner is. -/
theorem mkJoined_isSome_iff (hrs : ℚ) (df1 : List Row) (r2 : Row) :
    ((mkJoined hrs df1 r2).rise_progress.isSome = (mkJoined hrs df1 r2).old.isSome) ∧
    ((mkJoined hrs df1 r2).drop_progress.isSome = (mkJoined hrs df1 r2).old.isSome) := by
  cases h : df1.find? (fun r => r.id == r2.id) <;> simp [mkJoined, h, omap2]

/-- A merged row without a left-join partner has NaN progress cells. -/
theorem mkJoined_old_none {hrs : ℚ} {df1 : List Row} {r2 : Row}
    (h : (mkJoined hrs df1 r2).old = none) :
    (mkJoined hrs df1 r2).rise_progress = none ∧ (mkJoined hrs df1 r2).drop_progress = none := by
  have he : (mkJoined hrs df1 r2).old = df1.find? (fun r => r.id == r2.id) := rfl
  rw [he] at h
  simp [mkJoined, h, omap2]

theorem nlargestBy_length (key : Joined → Option ℚ) (ge : Joined → Joined → Prop)
    [DecidableRel ge] (n : ℕ) (l : List Joined) :
    (nlargestBy key ge n l).length = min n (l.filter (fun j => (key j).isSome)).length := by
  unfold nlargestBy
  rw [List.length_take, List.length_insertionSort]

/-- Membership in an nlargest selection implies membership in the input with
a present key. -/
theorem mem_nlargestBy {key : Joined → Option ℚ} {ge : Joined → Joined → Prop}
    [DecidableRel ge] {n : ℕ} {l : List Joined} {j : Joined}
    (h : j ∈ nlargestBy key ge n l) : j ∈ l ∧ (key j).isSome := by
  unfold nlargestBy at h
  have h2 := (List.perm_insertionSort ge _).mem_iff.mp (List.mem_of_mem_take h)
  exact ⟨(List.mem_filter.mp h2).1, (List.mem_filter.mp h2).2⟩

/-- When at most n rows have a present key, nlargest keeps all of them. -/
theorem mem_nlargestBy_of_all {key : Joined → Option ℚ} {ge : Joined → Joined → Prop}
    [DecidableRel ge] {n : ℕ} {l : List Joined} {j : Joined}
    (hlen : (l.filter (fun j => (key j).isSome)).length ≤ n)
    (hj : j ∈ l) (hk : (key j).isSome) : j ∈ nlargestBy key ge n l := by
  unfold nlargestBy
  rw [List.take_of_length_le (by rw [List.length_insertionSort]; exact hlen)]
  exact (List.perm_insertionSort ge _).mem_iff.mpr (List.mem_filter.mpr ⟨hj, hk⟩)

/-- Provenance of a prediction row. -/
theorem mem_predictionsOf {ts : String} {merged : List Joined} {p : PredRow}
    (hp : p ∈ predictionsOf ts merged) :
    ∃ j ∈ merged, p = mkRiser ts j ∨ p = mkFaller ts j := by
  unfold predictionsOf at hp
  rcases List.mem_append.mp hp with h | h
  · obtain ⟨j, hj, rfl⟩ := List.mem_map.mp h
    exact ⟨j, (mem_nlargestBy hj).1, Or.inl rfl⟩
  · obtain ⟨j, hj, rfl⟩ := List.mem_map.mp h
    exact ⟨j, (mem_nlargestBy hj).1, Or.inr rfl⟩

/-- Provenance of a summary row. -/
theorem mem_summaryOf {preds : List PredRow} {s : SumRow} (hs : s ∈ summaryOf preds) :
    ∃ p ∈ preds, s = roundSumRow (toSumRow p) := by
  unfold summaryOf at hs
  obtain ⟨s0, hs0, rfl⟩ := List.mem_map.mp hs
  have h2 := (List.perm_insertionSort absGe _).mem_iff.mp (List.mem_of_mem_take hs0)
  obtain ⟨p, hp, rfl⟩ := List.mem_map.mp h2
  exact ⟨p, hp, rfl⟩

theorem summaryOf_length (preds : List PredRow) :
    (summaryOf preds).length = min 20 preds.length := by
  unfold summaryOf
  rw [List.length_map, List.length_take, List.length_insertionSort, List.length_map]

/-! ## Run-timestamp sensitivity -/

/-- Predictions of the same merged frame under two run timestamps differ only
in the stamped timestamp column. -/
theorem predictionsOf_retime (ts1 ts2 : String) (merged : List Joined) :
    predictionsOf ts2 merged = (predictionsOf ts1 merged).map (retimeP ts2) := by
  unfold predictionsOf
  rw [List.map_append, List.map_map, List.map_map]
  rfl

theorem summaryOf_retime (ts : String) (preds : List PredRow) :
    summaryOf (preds.map (retimeP ts)) = (summaryOf preds).map (retimeS ts) := by
  unfold summaryOf
  rw [show (preds.map (retimeP ts)).map toSumRow = (preds.map toSumRow).map (retimeS ts) by
    rw [List.map_map, List.map_map]; rfl]
  rw [← List.map_insertionSort absGe absGe (retimeS ts) _ (fun a _ b _ => Iff.rfl),
    ← List.map_take, List.map_map, List.map_map]
  rfl

/-- The summaries of runs differing only in the run timestamp agree once the
timestamp column is blanked. -/
theorem summary_erase_eq (ts1 ts2 : String) (merged : List Joined) :
    (summaryOf (predictionsOf ts2 merged)).map eraseTsS =
      (summaryOf (predictionsOf ts1 merged)).map eraseTsS := by
  rw [predictionsOf_retime ts1 ts2, summaryOf_retime, List.map_map]
  rfl

/-! ## Lexicographic order of canonical timestamp strings is chronological -/

theorem isDigit_bounds {c : Char} (h : c.isDigit = true) : 48 ≤ c.toNat ∧ c.toNat ≤ 57 := by
  simp only [Char.isDigit, Bool.and_eq_true, decide_eq_true_eq] at h
  exact h

theorem digit_lt_iff {c d : Char} (hc : c.isDigit = true) (hd : d.isDigit = true) :
    c < d ↔ digitVal c < digitVal d := by
  obtain ⟨h1, h2⟩ := isDigit_bounds hc
  obtain ⟨h3, h4⟩ := isDigit_bounds hd
  have h5 : c < d ↔ c.toNat < d.toNat := Char.lt_iff_val_lt_val
  rw [h5]
  unfold digitVal
  omega

theorem digit_eq_iff {c d : Char} (hc : c.isDigit = true) (hd : d.isDigit = true) :
    c = d ↔ digitVal c = digitVal d := by
  constructor
  · intro h; rw [h]
  · intro h
    rcases lt_trichotomy c d with hlt | he | hlt
    · have := (digit_lt_iff hc hd).mp hlt; omega
    · exact he
    · have := (digit_lt_iff hd hc).mp hlt; omega

theorem clex_cons_cons {a b : Char} {l1 l2 : List Char} :
    List.Lex (· < ·) (a :: l1) (b :: l2) ↔ a < b ∨ (a = b ∧ List.Lex (· < ·) l1 l2) := by
  constructor
  · intro h
    cases h with
    | rel h => exact Or.inl h
    | cons h => exact Or.inr ⟨rfl, h⟩
  · rintro (h | ⟨rfl, h⟩)
    · exact List.Lex.rel h
    · exact List.Lex.cons h

theorem pDigit_some_elim {l r : List Char} {a : ℕ} (h : pDigit l = some (a, r)) :
    ∃ c, l = c :: r ∧ c.isDigit = true ∧ a = digitVal c ∧ a < 10 := by
  cases l with
  | nil => simp [pDigit] at h
  | cons c rest =>
    by_cases hc : c.isDigit
    · simp only [pDigit, hc, if_true, Option.some.injEq, Prod.mk.injEq] at h
      refine ⟨c, ?_, hc, h.1.symm, ?_⟩
      · rw [h.2]
      · have hb := isDigit_bounds hc
        have h1 := h.1
        unfold digitVal at h1
        omega
    · simp [pDigit, hc] at h

theorem pDigit_lex {l1 l2 r1 r2 : List Char} {a b : ℕ}
    (h1 : pDigit l1 = some (a, r1)) (h2 : pDigit l2 = some (b, r2)) :
    List.Lex (· < ·) l1 l2 ↔ a < b ∨ (a = b ∧ List.Lex (· < ·) r1 r2) := by
  obtain ⟨c, rfl, hc, rfl, h10⟩ := pDigit_some_elim h1
  obtain ⟨d, rfl, hd, rfl, h10b⟩ := pDigit_some_elim h2
  rw [clex_cons_cons, digit_lt_iff hc hd, digit_eq_iff hc hd]

theorem glue10 {a1 a2 b1 b2 : ℕ} (ha2 : a2 < 10) (hb2 : b2 < 10) (T : Prop) :
    (a1 < b1 ∨ (a1 = b1 ∧ (a2 < b2 ∨ (a2 = b2 ∧ T)))) ↔
    (10 * a1 + a2 < 10 * b1 + b2 ∨ (10 * a1 + a2 = 10 * b1 + b2 ∧ T)) := by
  constructor
  · rintro (h | ⟨rfl, h | ⟨rfl, hT⟩⟩)
    · exact Or.inl (by omega)
    · exact Or.inl (by omega)
    · exact Or.inr ⟨rfl, hT⟩
  · rintro (h | ⟨he, hT⟩)
    · rcases Nat.lt_trichotomy a1 b1 with h1 | h1 | h1
      · exact Or.inl h1
      · exact Or.inr ⟨h1, Or.inl (by omega)⟩
      · exact absurd h (by omega)
    · have h1 : a1 = b1 := by omega
      have h2 : a2 = b2 := by omega
      exact Or.inr ⟨h1, Or.inr ⟨h2, hT⟩⟩

theorem glue100 {a1 a2 b1 b2 : ℕ} (ha2 : a2 < 100) (hb2 : b2 < 100) (T : Prop) :
    (a1 < b1 ∨ (a1 = b1 ∧ (a2 < b2 ∨ (a2 = b2 ∧ T)))) ↔
    (100 * a1 + a2 < 100 * b1 + b2 ∨ (100 * a1 + a2 = 100 * b1 + b2 ∧ T)) := by
  constructor
  · rintro (h | ⟨rfl, h | ⟨rfl, hT⟩⟩)
    · exact Or.inl (by omega)
    · exact Or.inl (by omega)
    · exact Or.inr ⟨rfl, hT⟩
  · rintro (h | ⟨he, hT⟩)
    · rcases Nat.lt_trichotomy a1 b1 with h1 | h1 | h1
      · exact Or.inl h1
      · exact Or.inr ⟨h1, Or.inl (by omega)⟩
      · exact absurd h (by omega)
    · have h1 : a1 = b1 := by omega
      have h2 : a2 = b2 := by omega
      exact Or.inr ⟨h1, Or.inr ⟨h2, hT⟩⟩

theorem pD2_some_lt {l r : List Char} {a : ℕ} (h : pD2 l = some (a, r)) : a < 100 := by
  unfold pD2 at h
  rw [Option.bind_eq_some] at h
  obtain ⟨⟨a1, m1⟩, hx, h⟩ := h
  rw [Option.bind_eq_some] at h
  obtain ⟨⟨a2, m2⟩, hy, h⟩ := h
  simp only [Option.some.injEq, Prod.mk.injEq] at h
  obtain ⟨c, -, -, rfl, h10⟩ := pDigit_some_elim hx
  obtain ⟨d, -, -, rfl, h10b⟩ := pDigit_some_elim hy
  omega

theorem pD2_lex {l1 l2 r1 r2 : List Char} {a b : ℕ}
    (h1 : pD2 l1 = some (a, r1)) (h2 : pD2 l2 = some (b, r2)) :
    List.Lex (· < ·) l1 l2 ↔ a < b ∨ (a = b ∧ List.Lex (· < ·) r1 r2) := by
  unfold pD2 at h1 h2
  rw [Option.bind_eq_some] at h1 h2
  obtain ⟨⟨a1, m1⟩, hx1, h1⟩ := h1
  obtain ⟨⟨b1, n1⟩, hx2, h2⟩ := h2
  rw [Option.bind_eq_some] at h1 h2
  obtain ⟨⟨a2, m2⟩, hy1, h1⟩ := h1
  obtain ⟨⟨b2, n2⟩, hy2, h2⟩ := h2
  simp only [Option.some.injEq, Prod.mk.injEq] at h1 h2
  obtain ⟨rfl, rfl⟩ := h1
  obtain ⟨rfl, rfl⟩ := h2
  have ha2 : a2 < 10 := by
    obtain ⟨c, -, -, rfl, h⟩ := pDigit_some_elim hy1; exact h
  have hb2 : b2 < 10 := by
    obtain ⟨c, -, -, rfl, h⟩ := pDigit_some_elim hy2; exact h
  rw [pDigit_lex hx1 hx2, pDigit_lex hy1 hy2]
  exact glue10 ha2 hb2 _

theorem pD4_lex {l1 l2 r1 r2 : List Char} {a b : ℕ}
    (h1 : pD4 l1 = some (a, r1)) (h2 : pD4 l2 = some (b, r2)) :
    List.Lex (· < ·) l1 l2 ↔ a < b ∨ (a = b ∧ List.Lex (· < ·) r1 r2) := by
  unfold pD4 at h1 h2
  rw [Option.bind_eq_some] at h1 h2
  obtain ⟨⟨a1, m1⟩, hx1, h1⟩ := h1
  obtain ⟨⟨b1, n1⟩, hx2, h2⟩ := h2
  rw [Option.bind_eq_some] at h1 h2
  obtain ⟨⟨a2, m2⟩, hy1, h1⟩ := h1
  obtain ⟨⟨b2, n2⟩, hy2, h2⟩ := h2
  simp only [Option.some.injEq, Prod.mk.injEq] at h1 h2
  obtain ⟨rfl, rfl⟩ := h1
  obtain ⟨rfl, rfl⟩ := h2
  rw [pD2_lex hx1 hx2, pD2_lex hy1 hy2]
  exact glue100 (pD2_some_lt hy1) (pD2_some_lt hy2) _

theorem pSep_some_elim {c : Char} {l r : List Char} (h : pSep c l = some r) : l = c :: r := by
  cases l with
  | nil => simp [pSep] at h
  | cons a rest =>
    by_cases hac : a = c
    · subst hac
      simp only [pSep, if_true, Option.some.injEq] at h
      rw [h]
    · simp [pSep, hac] at h

theorem pSep_lex {c : Char} {l1 l2 r1 r2 : List Char}
    (h1 : pSep c l1 = some r1) (h2 : pSep c l2 = some r2) :
    List.Lex (· < ·) l1 l2 ↔ List.Lex (· < ·) r1 r2 := by
  rw [pSep_some_elim h1, pSep_some_elim h2, clex_cons_cons]
  simp

theorem parseBody_lex {l1 l2 r1 r2 : List Char} {f g : TsFields}
    (h1 : parseBody l1 = some (f, r1)) (h2 : parseBody l2 = some (g, r2)) :
    List.Lex (· < ·) l1 l2 ↔ fieldLex f g ∨ (f = g ∧ List.Lex (· < ·) r1 r2) := by
  unfold parseBody at h1 h2
  rw [Option.bind_eq_some] at h1 h2
  obtain ⟨⟨y1, a1⟩, hy1, h1⟩ := h1
  obtain ⟨⟨y2, a2⟩, hy2, h2⟩ := h2
  rw [Option.bind_eq_some] at h1 h2
  obtain ⟨b1, hb1, h1⟩ := h1
  obtain ⟨b2, hb2, h2⟩ := h2
  rw [Option.bind_eq_some] at h1 h2
  obtain ⟨⟨mo1, c1⟩, hmo1, h1⟩ := h1
  obtain ⟨⟨mo2, c2⟩, hmo2, h2⟩ := h2
  rw [Option.bind_eq_some] at h1 h2
  obtain ⟨e1, he1, h1⟩ := h1
  obtain ⟨e2, he2, h2⟩ := h2
  rw [Option.bind_eq_some] at h1 h2
  obtain ⟨⟨d1, i1⟩, hd1, h1⟩ := h1
  obtain ⟨⟨d2, i2⟩, hd2, h2⟩ := h2
  rw [Option.bind_eq_some] at h1 h2
  obtain ⟨j1, hj1, h1⟩ := h1
  obtain ⟨j2, hj2, h2⟩ := h2
  rw [Option.bind_eq_some] at h1 h2
  obtain ⟨⟨o1, k1⟩, ho1, h1⟩ := h1
  obtain ⟨⟨o2, k2⟩, ho2, h2⟩ := h2
  rw [Option.bind_eq_some] at h1 h2
  obtain ⟨m1, hm1, h1⟩ := h1
  obtain ⟨m2, hm2, h2⟩ := h2
  rw [Option.bind_eq_some] at h1 h2
  obtain ⟨⟨mi1, n1⟩, hmi1, h1⟩ := h1
  obtain ⟨⟨mi2, n2⟩, hmi2, h2⟩ := h2
  rw [Option.bind_eq_some] at h1 h2
  obtain ⟨p1, hp1, h1⟩ := h1
  obtain ⟨p2, hp2, h2⟩ := h2
  rw [Option.bind_eq_some] at h1 h2
  obtain ⟨⟨s1, q1⟩, hs1, h1⟩ := h1
  obtain ⟨⟨s2, q2⟩, hs2, h2⟩ := h2
  simp only [Option.some.injEq, Prod.mk.injEq] at h1 h2
  obtain ⟨rfl, rfl⟩ := h1
  obtain ⟨rfl, rfl⟩ := h2
  rw [pD4_lex hy1 hy2, pSep_lex hb1 hb2, pD2_lex hmo1 hmo2, pSep_lex he1 he2,
    pD2_lex hd1 hd2, pSep_lex hj1 hj2, pD2_lex ho1 ho2, pSep_lex hm1 hm2,
    pD2_lex hmi1 hmi2, pSep_lex hp1 hp2, pD2_lex hs1 hs2]
  unfold fieldLex
  simp only [TsFields.mk.injEq]
  tauto

/-! ## Calendar arithmetic: field order is instant order -/

theorem boundsOK_elim {f : TsFields} (h : boundsOK f = true) :
    1 ≤ f.year ∧ f.year ≤ 9999 ∧ 1 ≤ f.month ∧ f.month ≤ 12 ∧ 1 ≤ f.day ∧
    f.day ≤ daysInMonth (isLeap f.year) f.month ∧ f.hour < 24 ∧ f.minute < 60 ∧
    f.second < 60 := by
  simp only [boundsOK, Bool.and_eq_true, decide_eq_true_eq] at h
  tauto

theorem dbm_add_dim : ∀ b : Bool, ∀ m, m < 12 → 1 ≤ m →
    daysBeforeMonth b m + daysInMonth b m = daysBeforeMonth b (m + 1) := by decide

theorem dbm_mono : ∀ b : Bool, ∀ m, m < 13 → ∀ m2, m2 < 13 → m ≤ m2 →
    daysBeforeMonth b m ≤ daysBeforeMonth b m2 := by decide

theorem dbm_dim_le365 : ∀ m, m < 13 → 1 ≤ m →
    daysBeforeMonth false m + daysInMonth false m ≤ 365 := by decide

theorem dbm_dim_le366 : ∀ m, m < 13 → 1 ≤ m →
    daysBeforeMonth true m + daysInMonth true m ≤ 366 := by decide

theorem dby_succ_leap {y : ℕ} (hy : 1 ≤ y) (h : isLeap y = true) :
    daysBeforeYear (y + 1) = daysBeforeYear y + 366 := by
  simp only [isLeap, Bool.or_eq_true, Bool.and_eq_true, beq_iff_eq, bne_iff_ne] at h
  unfold daysBeforeYear
  rcases h with ⟨h1, h2⟩ | h
  · omega
  · omega

theorem dby_succ_nonleap {y : ℕ} (hy : 1 ≤ y) (h : isLeap y = false) :
    daysBeforeYear (y + 1) = daysBeforeYear y + 365 := by
  have h2 : ¬ isLeap y = true := by simp [h]
  simp only [isLeap, Bool.or_eq_true, Bool.and_eq_true, beq_iff_eq, bne_iff_ne] at h2
  push_neg at h2
  unfold daysBeforeYear
  omega

theorem dby_step (y : ℕ) : daysBeforeYear y ≤ daysBeforeYear (y + 1) := by
  rcases Nat.eq_zero_or_pos y with rfl | hy
  · decide
  · cases hb : isLeap y
    · rw [dby_succ_nonleap hy hb]
      omega
    · rw [dby_succ_leap hy hb]
      omega

theorem dby_mono {y y2 : ℕ} (h : y ≤ y2) : daysBeforeYear y ≤ daysBeforeYear y2 := by
  induction h with
  | refl => exact le_refl _
  | step h2 ih => exact le_trans ih (dby_step _)

theorem toDays_lt {f g : TsFields} (hf : boundsOK f = true) (hg : boundsOK g = true)
    (h : f.year < g.year ∨ (f.year = g.year ∧ (f.month < g.month ∨
      (f.month = g.month ∧ f.day < g.day)))) :
    toDays f < toDays g := by
  obtain ⟨hfy, hfy2, hfm, hfm2, hfd, hfd2, -, -, -⟩ := boundsOK_elim hf
  obtain ⟨hgy, hgy2, hgm, hgm2, hgd, hgd2, -, -, -⟩ := boundsOK_elim hg
  unfold toDays
  rcases h with hy | ⟨hy, hm | ⟨hm, hd⟩⟩
  · have h2 := dby_mono (show f.year + 1 ≤ g.year by omega)
    cases hb : isLeap f.year
    · have h1 := dbm_dim_le365 f.month (by omega) hfm
      have h3 := dby_succ_nonleap hfy hb
      rw [hb] at hfd2
      omega
    · have h1 := dbm_dim_le366 f.month (by omega) hfm
      have h3 := dby_succ_leap hfy hb
      rw [hb] at hfd2
      omega
  · rw [hy]
    rw [hy] at hfd2
    have h1 := dbm_add_dim (isLeap g.year) f.month (by omega) hfm
    have h2 := dbm_mono (isLeap g.year) (f.month + 1) (by omega) g.month (by omega) (by omega)
    omega
  · rw [hy, hm]
    omega

theorem tsSecs_lt_of_fieldLex {f g : TsFields} (hf : boundsOK f = true)
    (hg : boundsOK g = true) (h : fieldLex f g) : tsSecs f < tsSecs g := by
  obtain ⟨-, -, -, -, -, -, hfh, hfmi, hfs⟩ := boundsOK_elim hf
  obtain ⟨-, -, -, -, -, -, hgh, hgmi, hgs⟩ := boundsOK_elim hg
  unfold fieldLex at h
  rcases h with hy | ⟨hy, hm | ⟨hm, hd | ⟨hd, hrest⟩⟩⟩
  · have := toDays_lt hf hg (Or.inl hy)
    unfold tsSecs
    omega
  · have := toDays_lt hf hg (Or.inr ⟨hy, Or.inl hm⟩)
    unfold tsSecs
    omega
  · have := toDays_lt hf hg (Or.inr ⟨hy, Or.inr ⟨hm, hd⟩⟩)
    unfold tsSecs
    omega
  · have hD : toDays f = toDays g := by
      unfold toDays
      rw [hy, hm, hd]
    unfold tsSecs
    rcases hrest with hh | ⟨hh, hmi | ⟨hmi, hs⟩⟩ <;> omega

theorem fieldLex_trichotomy (f g : TsFields) : fieldLex f g ∨ f = g ∨ fieldLex g f := by
  obtain ⟨a1, a2, a3, a4, a5, a6⟩ := f
  obtain ⟨b1, b2, b3, b4, b5, b6⟩ := g
  unfold fieldLex
  simp only [TsFields.mk.injEq]
  omega

theorem tsSecs_lt_iff {f g : TsFields} (hf : boundsOK f = true) (hg : boundsOK g = true) :
    fieldLex f g ↔ tsSecs f < tsSecs g := by
  constructor
  · exact tsSecs_lt_of_fieldLex hf hg
  · intro h
    rcases fieldLex_trichotomy f g with hl | he | hl
    · exact hl
    · subst he
      omega
    · exact absurd (tsSecs_lt_of_fieldLex hg hf hl) (by omega)

/-! ## Parsing facts and the order coincidence -/

theorem parseTs_some_elim {t : String} {f : TsFields} (h : parseTs t = some f) :
    ∃ rest, parseBody t.data = some (f, rest) ∧ boundsOK f = true ∧ fracOK rest = true := by
  unfold parseTs at h
  split at h
  next f0 rest hp =>
    split at h
    next hcond =>
      obtain rfl := Option.some.inj h
      simp only [Bool.and_eq_true] at hcond
      exact ⟨rest, hp, hcond.1, hcond.2⟩
    next => exact absurd h (by simp)
  next => exact absurd h (by simp)

theorem isCanonicalTs_elim {t : String} (h : isCanonicalTs t = true) :
    ∃ f, parseBody t.data = some (f, []) ∧ boundsOK f = true ∧ parseTs t = some f := by
  unfold isCanonicalTs at h
  split at h
  next f rest hp =>
    simp only [Bool.and_eq_true, List.isEmpty_iff] at h
    obtain ⟨hb, rfl⟩ := h
    refine ⟨f, hp, hb, ?_⟩
    unfold parseTs
    rw [hp]
    show (if boundsOK f && fracOK [] then some f else none) = some f
    simp [hb, fracOK]
  next => exact absurd h (by simp)

/-- For canonical timestamp strings, the lexicographic string order used by
the source's sort coincides with chronological order. -/
theorem canonical_tsLt_iff_chronLt {s t : String}
    (hs : isCanonicalTs s = true) (ht : isCanonicalTs t = true) :
    tsLt s t ↔ chronLt s t := by
  obtain ⟨f, hpf, hbf, hps⟩ := isCanonicalTs_elim hs
  obtain ⟨g, hpg, hbg, hpt⟩ := isCanonicalTs_elim ht
  have hlex : List.Lex (· < ·) s.data t.data ↔
      fieldLex f g ∨ (f = g ∧ List.Lex (· < ·) ([] : List Char) []) := parseBody_lex hpf hpg
  have hrfl : tsLt s t ↔ List.Lex (· < ·) s.data t.data := Iff.rfl
  rw [hrfl, hlex]
  constructor
  · rintro (h | ⟨rfl, h⟩)
    · exact ⟨tsSecs f, tsSecs g, by simp [parseSecs, hps], by simp [parseSecs, hpt],
        (tsSecs_lt_iff hbf hbg).mp h⟩
    · exact absurd h (List.Lex.not_nil_right _ _)
  · rintro ⟨a, b, ha, hb, hab⟩
    rw [parseSecs, hps] at ha
    rw [parseSecs, hpt] at hb
    simp only [Option.map_some', Option.some.injEq] at ha hb
    subst ha
    subst hb
    exact Or.inl ((tsSecs_lt_iff hbf hbg).mpr hab)

theorem canonical_tsLe_chronLe {s t : String}
    (hs : isCanonicalTs s = true) (ht : isCanonicalTs t = true) (h : tsLe s t) :
    chronLe s t := by
  obtain ⟨f, -, hbf, hps⟩ := isCanonicalTs_elim hs
  obtain ⟨g, -, hbg, hpt⟩ := isCanonicalTs_elim ht
  refine ⟨tsSecs f, tsSecs g, by simp [parseSecs, hps], by simp [parseSecs, hpt], ?_⟩
  by_contra hlt
  push_neg at hlt
  exact h ((canonical_tsLt_iff_chronLt ht hs).mpr
    ⟨tsSecs g, tsSecs f, by simp [parseSecs, hpt], by simp [parseSecs, hps], hlt⟩)

/-! ## The selector picks the two largest timestamps -/

theorem string_data_inj {s t : String} (h : s.data = t.data) : s = t := by
  cases s
  cases t
  exact congrArg String.mk h

theorem tsLe_refl (s : String) : tsLe s s := lt_irrefl s.data

theorem latest_times_sorted (df : Store) : (latest_times df).Sorted tsLe :=
  List.sorted_insertionSort tsLe _

theorem latest_times_nodup (df : Store) : (latest_times df).Nodup :=
  ((List.perm_insertionSort tsLe _).nodup_iff).mpr (List.nodup_dedup _)

theorem mem_latest_times {df : Store} {t : String} :
    t ∈ latest_times df ↔ t ∈ df.map Row.timestamp := by
  unfold latest_times
  rw [(List.perm_insertionSort tsLe _).mem_iff, List.mem_dedup]

theorem getD_mem {L : List String} {i : ℕ} (h : i < L.length) : L.getD i "" ∈ L := by
  rw [List.getD_eq_getElem L "" h]
  exact List.getElem_mem h

theorem selectPair_some_elim {df : Store} {t1 t2 : String}
    (h : selectPair df = some (t1, t2)) :
    2 ≤ (latest_times df).length ∧
    t1 = (latest_times df).getD ((latest_times df).length - 2) "" ∧
    t2 = (latest_times df).getD ((latest_times df).length - 1) "" := by
  simp only [selectPair] at h
  split at h
  · exact absurd h (by simp)
  next hlen =>
    have h2 := Option.some.inj h
    exact ⟨by omega, (congrArg Prod.fst h2).symm, (congrArg Prod.snd h2).symm⟩

/-- In a sorted duplicate-free list, the last element is the strict maximum
and the one before it bounds everything else. -/
theorem sorted_last_two {L : List String} (hs : L.Sorted tsLe) (hn : L.Nodup)
    (hlen : 2 ≤ L.length) :
    tsLt (L.getD (L.length - 2) "") (L.getD (L.length - 1) "") ∧
    (∀ x ∈ L, tsLe x (L.getD (L.length - 1) "")) ∧
    (∀ x ∈ L, x ≠ L.getD (L.length - 1) "" → tsLe x (L.getD (L.length - 2) "")) := by
  have h2 : L.length - 2 < L.length := by omega
  have h1 : L.length - 1 < L.length := by omega
  rw [List.getD_eq_getElem L "" h2, List.getD_eq_getElem L "" h1,
    ← List.get_eq_getElem L ⟨L.length - 2, h2⟩, ← List.get_eq_getElem L ⟨L.length - 1, h1⟩]
  refine ⟨?_, ?_, ?_⟩
  · have hle : tsLe (L.get ⟨L.length - 2, h2⟩) (L.get ⟨L.length - 1, h1⟩) :=
      hs.rel_get_of_lt (by rw [Fin.lt_def]; simp; omega)
    have hne : L.get ⟨L.length - 2, h2⟩ ≠ L.get ⟨L.length - 1, h1⟩ := by
      intro he
      have h3 := (hn.get_inj_iff).mp he
      rw [Fin.ext_iff] at h3
      simp at h3
      omega
    rcases lt_trichotomy (L.get ⟨L.length - 2, h2⟩).data
        (L.get ⟨L.length - 1, h1⟩).data with hlt | heq | hgt
    · exact hlt
    · exact absurd (string_data_inj heq) hne
    · exact absurd hgt hle
  · intro x hx
    obtain ⟨i, hi⟩ := List.mem_iff_get.mp hx
    subst hi
    rcases Nat.lt_or_ge i.1 (L.length - 1) with hlt | hge
    · exact hs.rel_get_of_lt (by rw [Fin.lt_def]; simp; omega)
    · have he : i = ⟨L.length - 1, h1⟩ := Fin.ext (by have := i.2; simp; omega)
      rw [he]
      exact tsLe_refl _
  · intro x hx hne
    obtain ⟨i, hi⟩ := List.mem_iff_get.mp hx
    subst hi
    have hine : i.1 ≠ L.length - 1 := by
      intro he
      exact hne (congrArg L.get (Fin.ext (by simp; omega)))
    rcases Nat.lt_or_ge i.1 (L.length - 2) with hlt | hge
    · exact hs.rel_get_of_lt (by rw [Fin.lt_def]; simp; omega)
    · have he : i = ⟨L.length - 2, h2⟩ := Fin.ext (by have := i.2; simp; omega)
      rw [he]
      exact tsLe_refl _

/-- The selected pair of a run with all-canonical timestamps is strictly
lexicographically ordered, hence chronologically ordered. -/
theorem selectPair_chron {df : Store} {t1 t2 : String}
    (hcanon : ∀ t ∈ df.map Row.timestamp, isCanonicalTs t = true)
    (hsel : selectPair df = some (t1, t2)) :
    isCanonicalTs t1 = true ∧ isCanonicalTs t2 = true ∧ tsLt t1 t2 ∧
    (∀ t ∈ df.map Row.timestamp, tsLe t t2 ∧ (t ≠ t2 → tsLe t t1)) := by
  obtain ⟨hlen, ht1, ht2⟩ := selectPair_some_elim hsel
  obtain ⟨hlt, hmax, hsecond⟩ :=
    sorted_last_two (latest_times_sorted df) (latest_times_nodup df) hlen
  rw [← ht1] at hlt hsecond
  rw [← ht2] at hlt hmax hsecond
  have hm1 : t1 ∈ latest_times df := ht1 ▸ getD_mem (by omega)
  have hm2 : t2 ∈ latest_times df := ht2 ▸ getD_mem (by omega)
  refine ⟨hcanon t1 (mem_latest_times.mp hm1), hcanon t2 (mem_latest_times.mp hm2), hlt, ?_⟩
  intro t htmem
  have htl : t ∈ latest_times df := mem_latest_times.mpr htmem
  exact ⟨hmax t htl, fun hne => hsecond t htl hne⟩

/-! ## Claims -/

/-- C3: for every Snapshot Store with fewer than 2 distinct timestamps, the
run fails with the insufficient-history error (the spec's InsufficientHistory,
the source's raise at line 36), and neither the Prediction Log nor the
Summary file is created or modified. -/
theorem C3_insufficient_history_no_outputs (df : Store) (ts : String) (fs : FileState)
    (h : ((df.map Row.timestamp).dedup).length < 2) :
    runAnalyzer df ts fs = .error .insufficientHistory ∧ runFS df ts fs = fs := by
  have hsel : selectPair df = none := by
    unfold selectPair latest_times
    simp [List.length_insertionSort, h]
  have ha : analyze df ts = .error .insufficientHistory := by
    unfold analyze; rw [hsel]
  have hra : runAnalyzer df ts fs = .error .insufficientHistory := by
    unfold runAnalyzer; rw [ha]
  refine ⟨hra, ?_⟩
  unfold runFS; rw [hra]

/-- Witness for C3: a store with a single snapshot. -/
theorem C3_witness :
    ((df3.map Row.timestamp).dedup).length < 2 ∧
    (runAnalyzer df3 "x" ⟨none, none⟩ = .error .insufficientHistory ∧
      runFS df3 "x" ⟨none, none⟩ = ⟨none, none⟩) :=
  ⟨by decide, C3_insufficient_history_no_outputs df3 "x" ⟨none, none⟩ (by decide)⟩

/-- C4: in every Delta Record of a run, a positive net per-hour rate forces
drop_progress = 0 and a negative one forces rise_progress = 0. -/
theorem C4_progress_mutually_exclusive (df : Store) (ts : String) (out : RunOut)
    (hok : analyze df ts = .ok out) (j : Joined) (hj : j ∈ out.merged) (q : ℚ)
    (hq : j.net_delta_per_hr = some q) :
    (0 < q → j.drop_progress = some 0) ∧ (q < 0 → j.rise_progress = some 0) := by
  obtain ⟨t1, t2, k1, k2, -, -, -, rfl⟩ := analyze_ok_elim hok
  obtain ⟨r2, -, rfl⟩ := mem_merged_elim hj
  obtain ⟨hrise, hdrop⟩ := mkJoined_progress_of_net hq
  constructor
  · intro h0
    rw [hdrop, max_eq_left (neg_nonpos.mpr h0.le), zero_div, roundDec_zero]
  · intro h0
    rw [hrise, max_eq_left h0.le, zero_div, roundDec_zero]

/-- Witness for C4: the positive-rate entity of `dfPos`. -/
theorem C4_witness :
    analyze dfPos "2025-08-01 11:00:30" = .ok outPos ∧ jPos ∈ outPos.merged ∧
    jPos.net_delta_per_hr = some 500 ∧ (0 : ℚ) < 500 ∧ jPos.drop_progress = some 0 :=
  ⟨rfl, by decide, by decide, by decide,
    (C4_progress_mutually_exclusive dfPos "2025-08-01 11:00:30" outPos rfl jPos
      (by decide) 500 (by decide)).1 (by decide)⟩

/-- C5: when every t_new entity's transfer counters equal its t_old
counters, every delta field, every per-hour rate and both progress scores of
every Delta Record are exactly 0. -/
theorem C5_identical_counters_all_zero (df : Store) (ts : String) (out : RunOut)
    (hok : analyze df ts = .ok out)
    (hsame : ∀ r2 ∈ sliceAt df out.t_new, ∃ r1,
      (sliceAt df out.t_old).find? (fun r => r.id == r2.id) = some r1 ∧
      r1.transfers_in_event = r2.transfers_in_event ∧
      r1.transfers_out_event = r2.transfers_out_event) :
    ∀ j ∈ out.merged, j.delta_in = some 0 ∧ j.delta_out = some 0 ∧ j.net_delta = some 0 ∧
      j.delta_in_per_hr = some 0 ∧ j.delta_out_per_hr = some 0 ∧
      j.net_delta_per_hr = some 0 ∧ j.rise_progress = some 0 ∧ j.drop_progress = some 0 := by
  obtain ⟨t1, t2, k1, k2, hsel, hp1, hp2, rfl⟩ := analyze_ok_elim hok
  rw [analyzeAt_t_old, analyzeAt_t_new] at hsame
  intro j hj
  obtain ⟨r2, hr2, rfl⟩ := mem_merged_elim hj
  obtain ⟨r1, hfind, hin, hout⟩ := hsame r2 hr2
  obtain ⟨d1, d2, d3, d4, d5, d6⟩ :=
    mkJoined_fields_of_find (((k2 : ℚ) - (k1 : ℚ)) / 3600) hfind
  have hz : (mkJoined (((k2 : ℚ) - (k1 : ℚ)) / 3600) (sliceAt df t1) r2).net_delta_per_hr =
      some 0 := by
    rw [d6, hin, hout]; simp
  obtain ⟨hrise, hdrop⟩ := mkJoined_progress_of_net hz
  refine ⟨by rw [d1, hin]; simp, by rw [d2, hout]; simp, by rw [d3, hin, hout]; simp,
    by rw [d4, hin]; simp, by rw [d5, hout]; simp, hz,
    by rw [hrise]; simp [roundDec_zero], by rw [hdrop]; simp [roundDec_zero]⟩

/-- Witness for C5: a two-entity store with unchanged counters. -/
theorem C5_witness :
    analyze dfSame "x" = .ok outSame ∧
    ((sliceAt dfSame outSame.t_new).all (fun r2 =>
      ((sliceAt dfSame outSame.t_old).find? (fun r => r.id == r2.id)).any (fun r1 =>
        r1.transfers_in_event == r2.transfers_in_event &&
        r1.transfers_out_event == r2.transfers_out_event)) = true) ∧
    jSame ∈ outSame.merged ∧
    (jSame.delta_in = some 0 ∧ jSame.delta_out = some 0 ∧ jSame.net_delta = some 0 ∧
      jSame.delta_in_per_hr = some 0 ∧ jSame.delta_out_per_hr = some 0 ∧
      jSame.net_delta_per_hr = some 0 ∧ jSame.rise_progress = some 0 ∧
      jSame.drop_progress = some 0) :=
  ⟨rfl, by decide, by decide,
    C5_identical_counters_all_zero dfSame "x" outSame rfl
      (by
        intro r2 hr2
        rw [show sliceAt dfSame outSame.t_new =
          [fxRow t11 1 "Aa" "Bb" 100 50, fxRow t11 2 "Cc" "Dd" 7 9] from by decide] at hr2
        simp only [List.mem_cons, List.not_mem_nil, or_false] at hr2
        rcases hr2 with rfl | rfl
        · exact ⟨fxRow t10 1 "Aa" "Bb" 100 50, by decide, by decide, by decide⟩
        · exact ⟨fxRow t10 2 "Cc" "Dd" 7 9, by decide, by decide, by decide⟩)
      jSame (by decide)⟩

/-- C1 counterexample: entity 2 is present only in the t_new slice, yet it
receives a Delta Record (the merge is a left join on t_new, not an inner
join), so entities missing from the t_old side are not dropped. -/
theorem C1_counterexample :
    out1x.merged.map Joined.id = [1, 2] ∧ 2 ∉ (sliceAt df1x t10).map Row.id ∧
    selectPair df1x = some (t10, t11) := by decide

/-- C1 amended: the Delta Engine produces exactly one Delta Record per row of
the t_new slice (left-join semantics).  Entities present at t_old but absent
at t_new never appear in any Delta, Prediction or Summary record of the run;
entities present only at t_new receive a Delta Record whose derived cells are
all NaN, and so carry no progress scores. -/
theorem C1_left_join_semantics (df : Store) (ts : String) (out : RunOut)
    (hok : analyze df ts = .ok out) :
    out.merged.map Joined.id = (sliceAt df out.t_new).map Row.id ∧
    (∀ i : ℕ, i ∉ (sliceAt df out.t_new).map Row.id → i ∉ out.merged.map Joined.id) ∧
    (∀ p ∈ out.predictions, ∃ r2 ∈ sliceAt df out.t_new,
      p.name = r2.first_name ++ " " ++ r2.second_name) ∧
    (∀ s ∈ out.summary, ∃ r2 ∈ sliceAt df out.t_new,
      s.name = r2.first_name ++ " " ++ r2.second_name) ∧
    (∀ j ∈ out.merged, j.old = none →
      j.rise_progress = none ∧ j.drop_progress = none) := by
  obtain ⟨t1, t2, k1, k2, hsel, hp1, hp2, rfl⟩ := analyze_ok_elim hok
  rw [analyzeAt_t_new, analyzeAt_merged, analyzeAt_predictions, analyzeAt_summary]
  refine ⟨?_, ?_, ?_, ?_, ?_⟩
  · rw [List.map_map]; rfl
  · intro i hnew hmem
    rw [List.map_map] at hmem
    exact hnew hmem
  · intro p hp
    obtain ⟨j, hj, hcase⟩ := mem_predictionsOf hp
    obtain ⟨r2, hr2, rfl⟩ := List.mem_map.mp hj
    rcases hcase with rfl | rfl
    · exact ⟨r2, hr2, rfl⟩
    · exact ⟨r2, hr2, rfl⟩
  · intro s hs
    obtain ⟨p, hp, rfl⟩ := mem_summaryOf hs
    obtain ⟨j, hj, hcase⟩ := mem_predictionsOf hp
    obtain ⟨r2, hr2, rfl⟩ := List.mem_map.mp hj
    rcases hcase with rfl | rfl
    · exact ⟨r2, hr2, rfl⟩
    · exact ⟨r2, hr2, rfl⟩
  · intro j hj hnone
    obtain ⟨r2, hr2, rfl⟩ := List.mem_map.mp hj
    exact mkJoined_old_none hnone

/-- Witness for the amended C1, on the mixed store df1x: entity 3 (t_old
only) appears in no Delta Record, and the ids of the Delta Records are the
ids of the t_new slice. -/
theorem C1_witness :
    analyze df1x "x" = .ok out1x ∧
    out1x.merged.map Joined.id = (sliceAt df1x out1x.t_new).map Row.id ∧
    3 ∉ (sliceAt df1x out1x.t_new).map Row.id ∧
    3 ∉ out1x.merged.map Joined.id :=
  ⟨rfl, (C1_left_join_semantics df1x "x" out1x rfl).1, by decide,
    (C1_left_join_semantics df1x "x" out1x rfl).2.1 3 (by decide)⟩

/-- C8 counterexample: on the claim's exact scenario (in 1000 to 1500, out
unchanged, one hour apart) the engine computes rise_progress = 0.00, not the
claimed round(500/100000, 2) = 0.01: the library rounds half to even, its
scaled intermediate is exactly 0.5, and 0.5 rounds to 0. -/
theorem C8_counterexample :
    analyze dfPos "2025-08-01 11:00:30" = .ok outPos ∧
    outPos.merged.map Joined.rise_progress = [some 0] ∧ ¬ ((0 : ℚ) = 1/100) :=
  ⟨rfl, by decide, by decide⟩

/-- C8 amended: in the claim's scenario, delta_in = 500, delta_out = 0,
net_delta = 500, net_delta_per_hr = 500, drop_progress = 0, and
rise_progress = 0.00 (half-to-even rounding of 0.005 at 2 decimals). -/
theorem C8_scenario_values :
    analyze dfPos "2025-08-01 11:00:30" = .ok outPos ∧
    outPos.hours_elapsed = 1 ∧
    outPos.merged.map Joined.delta_in = [some 500] ∧
    outPos.merged.map Joined.delta_out = [some 0] ∧
    outPos.merged.map Joined.net_delta = [some 500] ∧
    outPos.merged.map Joined.net_delta_per_hr = [some 500] ∧
    outPos.merged.map Joined.rise_progress = [some 0] ∧
    outPos.merged.map Joined.drop_progress = [some 0] :=
  ⟨rfl, by decide, by decide, by decide, by decide, by decide, by decide, by decide⟩

/-- C10: the riser and the faller lists each have exactly
min(10, number of entities surviving the join) rows, whatever the progress
values are; and when at most 10 entities survive the join, every surviving
record is in both lists. -/
theorem C10_lists_filled (df : Store) (ts : String) (out : RunOut)
    (hok : analyze df ts = .ok out) :
    (top_risers out.merged).length =
      min 10 (out.merged.filter (fun j => j.old.isSome)).length ∧
    (top_droppers out.merged).length =
      min 10 (out.merged.filter (fun j => j.old.isSome)).length ∧
    ((out.merged.filter (fun j => j.old.isSome)).length ≤ 10 →
      ∀ j ∈ out.merged, j.old.isSome →
        j ∈ top_risers out.merged ∧ j ∈ top_droppers out.merged) := by
  obtain ⟨t1, t2, k1, k2, hsel, hp1, hp2, rfl⟩ := analyze_ok_elim hok
  rw [analyzeAt_merged]
  set m := (sliceAt df t2).map (mkJoined (((k2 : ℚ) - (k1 : ℚ)) / 3600) (sliceAt df t1)) with hm
  have hfr : m.filter (fun j => j.rise_progress.isSome) = m.filter (fun j => j.old.isSome) := by
    apply List.filter_congr
    intro j hj
    obtain ⟨r2, hr2, rfl⟩ := List.mem_map.mp hj
    simp [(mkJoined_isSome_iff _ _ r2).1]
  have hfd : m.filter (fun j => j.drop_progress.isSome) = m.filter (fun j => j.old.isSome) := by
    apply List.filter_congr
    intro j hj
    obtain ⟨r2, hr2, rfl⟩ := List.mem_map.mp hj
    simp [(mkJoined_isSome_iff _ _ r2).2]
  refine ⟨?_, ?_, ?_⟩
  · rw [top_risers, nlargestBy_length, hfr]
  · rw [top_droppers, nlargestBy_length, hfd]
  · intro hlen j hj hsome
    obtain ⟨r2, hr2, hjr⟩ := List.mem_map.mp hj
    have hrise : j.rise_progress.isSome := by
      rw [← hjr] at hsome ⊢
      rw [(mkJoined_isSome_iff _ _ r2).1]
      exact hsome
    have hdrop : j.drop_progress.isSome := by
      rw [← hjr] at hsome ⊢
      rw [(mkJoined_isSome_iff _ _ r2).2]
      exact hsome
    exact ⟨mem_nlargestBy_of_all (by rw [hfr]; exact hlen) hj hrise,
      mem_nlargestBy_of_all (by rw [hfd]; exact hlen) hj hdrop⟩

/-- Witness for C10: with one zero-delta entity, the entity pads both the
riser and the faller list with both progress scores equal to 0. -/
theorem C10_witness :
    analyze dfZero "2025-08-01 12:00:00" = .ok outZero ∧
    (top_risers outZero.merged).length =
      min 10 (outZero.merged.filter (fun j => j.old.isSome)).length ∧
    (outZero.merged.filter (fun j => j.old.isSome)).length ≤ 10 ∧
    jZero ∈ outZero.merged ∧ jZero.old.isSome = true ∧
    (jZero ∈ top_risers outZero.merged ∧ jZero ∈ top_droppers outZero.merged) ∧
    jZero.rise_progress = some 0 ∧ jZero.drop_progress = some 0 :=
  ⟨rfl, (C10_lists_filled dfZero "2025-08-01 12:00:00" outZero rfl).1, by decide, by decide,
    by decide,
    (C10_lists_filled dfZero "2025-08-01 12:00:00" outZero rfl).2.2 (by decide) jZero
      (by decide) (by decide),
    by decide, by decide⟩

/-- C7: the Summary of a run has exactly min(20, number of Prediction Records
produced this run) rows, the rows of the sorted selection are a permutation
of this run's projected predictions, and every row inside the cut has
absolute signed progress at least that of every row beyond it. -/
theorem C7_summary_min20 (df : Store) (ts : String) (out : RunOut)
    (hok : analyze df ts = .ok out) :
    out.summary.length = min 20 out.predictions.length ∧
    (List.insertionSort absGe (out.predictions.map toSumRow)).Perm
      (out.predictions.map toSumRow) ∧
    (∀ a ∈ (List.insertionSort absGe (out.predictions.map toSumRow)).take 20,
      ∀ b ∈ (List.insertionSort absGe (out.predictions.map toSumRow)).drop 20,
        |b.progress| ≤ |a.progress|) := by
  obtain ⟨t1, t2, k1, k2, hsel, hp1, hp2, rfl⟩ := analyze_ok_elim hok
  refine ⟨?_, List.perm_insertionSort absGe _, ?_⟩
  · rw [show (analyzeAt df ts t1 t2 k1 k2).summary =
      summaryOf (analyzeAt df ts t1 t2 k1 k2).predictions from rfl, summaryOf_length]
  · intro a ha b hb
    exact (List.sorted_insertionSort absGe
      ((analyzeAt df ts t1 t2 k1 k2).predictions.map toSumRow)).rel_of_mem_take_of_mem_drop ha hb

/-- Witness for C7 on the mixed store df1x. -/
theorem C7_witness :
    analyze df1x "x" = .ok out1x ∧
    out1x.summary.length = min 20 out1x.predictions.length :=
  ⟨rfl, (C7_summary_min20 df1x "x" out1x rfl).1⟩

/-- C6 counterexample: over a one-entity store, a run from a non-existent
Prediction Log grows the log by 2 rows, not 20; and a second run stamped at a
different wall-clock second produces a summary file that is not byte-identical
to the first (the Timestamp column differs). -/
theorem C6_counterexample :
    (runFS dfZero "2025-08-01 12:00:00" ⟨none, none⟩).predLog.map List.length = some 2 ∧
    ¬ (2 = 20) ∧
    (runFS dfZero "2025-08-01 13:00:00"
        (runFS dfZero "2025-08-01 12:00:00" ⟨none, none⟩)).summaryFile ≠
      (runFS dfZero "2025-08-01 12:00:00" ⟨none, none⟩).summaryFile := by decide

/-- C6 amended: a run appends 2·min(10, number of join survivors) prediction
rows (20 when at least 10 entities survive); re-running with the same run
timestamp appends the same rows again and rewrites the identical summary; and
a run stamped with any other run timestamp differs in the summary only in the
Timestamp column. -/
theorem C6_two_runs_deterministic (df : Store) (ts ts2 : String) (out : RunOut)
    (hok : analyze df ts = .ok out) :
    out.predictions.length = 2 * min 10 ((out.merged.filter (fun j => j.old.isSome)).length) ∧
    runFS df ts ⟨none, none⟩ = ⟨some out.predictions, some out.summary⟩ ∧
    runFS df ts (runFS df ts ⟨none, none⟩) =
      ⟨some (out.predictions ++ out.predictions), some out.summary⟩ ∧
    (∀ out2, analyze df ts2 = .ok out2 →
      out2.summary.map eraseTsS = out.summary.map eraseTsS ∧
      out2.predictions.length = out.predictions.length) := by
  have hlen : out.predictions.length =
      2 * min 10 ((out.merged.filter (fun j => j.old.isSome)).length) := by
    obtain ⟨t1, t2, k1, k2, hsel, hp1, hp2, rfl⟩ := analyze_ok_elim hok
    have h10 := C10_lists_filled df ts _ hok
    rw [analyzeAt_predictions, analyzeAt_merged] at *
    rw [predictionsOf, List.length_append, List.length_map, List.length_map]
    rw [show (top_risers (List.map (mkJoined (((k2 : ℚ) - (k1 : ℚ)) / 3600)
        (sliceAt df t1)) (sliceAt df t2))).length = _ from h10.1,
      show (top_droppers (List.map (mkJoined (((k2 : ℚ) - (k1 : ℚ)) / 3600)
        (sliceAt df t1)) (sliceAt df t2))).length = _ from h10.2.1]
    ring
  have hfs1 : runFS df ts ⟨none, none⟩ = ⟨some out.predictions, some out.summary⟩ := by
    unfold runFS runAnalyzer
    rw [hok]
    simp
  refine ⟨hlen, hfs1, ?_, ?_⟩
  · rw [hfs1]
    unfold runFS runAnalyzer
    rw [hok]
    rfl
  · intro out2 hok2
    obtain ⟨t1, t2, k1, k2, hsel, hp1, hp2, rfl⟩ := analyze_ok_elim hok
    obtain ⟨t1b, t2b, k1b, k2b, hselb, hp1b, hp2b, rfl⟩ := analyze_ok_elim hok2
    rw [hsel] at hselb
    obtain ⟨rfl, rfl⟩ : t1 = t1b ∧ t2 = t2b := by
      have := Option.some.inj hselb
      exact ⟨congrArg Prod.fst this, congrArg Prod.snd this⟩
    rw [hp1] at hp1b
    rw [hp2] at hp2b
    obtain rfl : k1 = k1b := Option.some.inj hp1b
    obtain rfl : k2 = k2b := Option.some.inj hp2b
    constructor
    · rw [analyzeAt_summary, analyzeAt_summary]
      exact summary_erase_eq ts ts2 _
    · rw [analyzeAt_predictions, analyzeAt_predictions,
        predictionsOf_retime ts ts2, List.length_map]

/-- Witness for the amended C6, on the one-entity store dfZero. -/
theorem C6_witness :
    analyze dfZero "2025-08-01 12:00:00" = .ok outZero ∧
    outZero.predictions.length =
      2 * min 10 ((outZero.merged.filter (fun j => j.old.isSome)).length) ∧
    runFS dfZero "2025-08-01 12:00:00" ⟨none, none⟩ =
      ⟨some outZero.predictions, some outZero.summary⟩ ∧
    (outOf (analyze dfZero "2025-08-01 13:00:00")).summary.map eraseTsS =
      outZero.summary.map eraseTsS :=
  ⟨rfl,
    (C6_two_runs_deterministic dfZero "2025-08-01 12:00:00" "2025-08-01 13:00:00" outZero rfl).1,
    (C6_two_runs_deterministic dfZero "2025-08-01 12:00:00" "2025-08-01 13:00:00" outZero rfl).2.1,
    ((C6_two_runs_deterministic dfZero "2025-08-01 12:00:00" "2025-08-01 13:00:00" outZero
      rfl).2.2.2 (outOf (analyze dfZero "2025-08-01 13:00:00")) rfl).1⟩

/-- The net per-hour rate is the net delta over the elapsed hours. -/
theorem mkJoined_rate_of_net {hrs : ℚ} {df1 : List Row} {r2 : Row} {d : ℤ}
    (h : (mkJoined hrs df1 r2).net_delta = some d) :
    (mkJoined hrs df1 r2).net_delta_per_hr = some ((d : ℚ) / hrs) := by
  cases hfind : df1.find? (fun r => r.id == r2.id) with
  | none =>
    have hnone : (mkJoined hrs df1 r2).net_delta = none := by
      simp [mkJoined, hfind, omap2]
    rw [hnone] at h
    exact absurd h (by simp)
  | some r1 =>
    obtain ⟨-, -, d3, -, -, d6⟩ := mkJoined_fields_of_find hrs hfind
    rw [d3] at h
    obtain rfl := Option.some.inj h
    exact d6

/-- C2 counterexample: a store with two distinct timestamp strings denoting
the same instant (the second carries a zero fractional-second suffix, which
the source's datetime parser accepts).  hours_elapsed is 0, yet the run
succeeds and writes its outputs: the code has no DegenerateInterval error
and no hours_elapsed check. -/
theorem C2_counterexample :
    analyze df2x "x" = .ok out2x ∧ out2x.hours_elapsed = 0 ∧
    parseSecs tA = parseSecs tB ∧ tA ≠ tB ∧
    (runFS df2x "x" ⟨none, none⟩).predLog.isSome = true :=
  ⟨rfl, by decide, by decide, by decide, by decide⟩

/-- C2 amended: the analyzer has no explicit hours_elapsed check and no
DegenerateInterval error, but whenever every store timestamp is in the
canonical "YYYY-MM-DD HH:MM:SS" format the two selected snapshots are
distinct timestamps with distinct instants, so every run that reaches the
rate computation has hours_elapsed > 0 and every per-hour rate is a division
by that positive interval -- a division by zero never occurs. -/
theorem C2_rates_positive_interval (df : Store) (ts : String) (out : RunOut)
    (hcanon : ∀ t ∈ df.map Row.timestamp, isCanonicalTs t = true)
    (hok : analyze df ts = .ok out) :
    0 < out.hours_elapsed ∧
    (∀ j ∈ out.merged, ∀ d : ℤ, j.net_delta = some d →
      j.net_delta_per_hr = some ((d : ℚ) / out.hours_elapsed)) := by
  obtain ⟨t1, t2, k1, k2, hsel, hp1, hp2, rfl⟩ := analyze_ok_elim hok
  rw [analyzeAt_hours]
  have hpos : (0 : ℚ) < ((k2 : ℚ) - (k1 : ℚ)) / 3600 := by
    obtain ⟨hc1, hc2, hlt, -⟩ := selectPair_chron hcanon hsel
    obtain ⟨a, b, ha, hb, hab⟩ := (canonical_tsLt_iff_chronLt hc1 hc2).mp hlt
    rw [hp1] at ha
    rw [hp2] at hb
    obtain rfl := Option.some.inj ha
    obtain rfl := Option.some.inj hb
    have hq : (k1 : ℚ) < (k2 : ℚ) := by exact_mod_cast hab
    apply div_pos (by linarith) (by norm_num)
  refine ⟨hpos, ?_⟩
  intro j hj d hd
  obtain ⟨r2, -, rfl⟩ := mem_merged_elim hj
  exact mkJoined_rate_of_net hd

/-- Witness for the amended C2, on the one-hour store dfPos. -/
theorem C2_witness :
    (dfPos.map Row.timestamp).all isCanonicalTs = true ∧
    analyze dfPos "2025-08-01 11:00:30" = .ok outPos ∧
    0 < outPos.hours_elapsed ∧ jPos ∈ outPos.merged ∧ jPos.net_delta = some 500 ∧
    jPos.net_delta_per_hr = some ((500 : ℚ) / outPos.hours_elapsed) :=
  ⟨by decide, rfl,
    (C2_rates_positive_interval dfPos "2025-08-01 11:00:30" outPos (by decide) rfl).1,
    by decide, by decide,
    (C2_rates_positive_interval dfPos "2025-08-01 11:00:30" outPos (by decide) rfl).2 jPos
      (by decide) 500 (by decide)⟩

/-- C9: the Snapshot Selector returns the two chronologically most recent of
the store's distinct timestamps as (t_old, t_new) with t_old strictly
earlier; on canonical-format strings the lexicographic sort the code
performs coincides with chronological order. -/
theorem C9_selector_two_most_recent (df : Store) (t1 t2 : String)
    (hcanon : ∀ t ∈ df.map Row.timestamp, isCanonicalTs t = true)
    (hsel : selectPair df = some (t1, t2)) :
    t1 ≠ t2 ∧ chronLt t1 t2 ∧
    (∀ t ∈ df.map Row.timestamp, chronLe t t2 ∧ (t ≠ t2 → chronLe t t1)) ∧
    (∀ s t : String, isCanonicalTs s = true → isCanonicalTs t = true →
      (tsLt s t ↔ chronLt s t)) := by
  obtain ⟨hc1, hc2, hlt, hbound⟩ := selectPair_chron hcanon hsel
  refine ⟨?_, (canonical_tsLt_iff_chronLt hc1 hc2).mp hlt, ?_,
    fun s t hcs hct => canonical_tsLt_iff_chronLt hcs hct⟩
  · intro he
    rw [he] at hlt
    exact lt_irrefl _ hlt
  · intro t htmem
    have hct := hcanon t htmem
    obtain ⟨hle2, hle1⟩ := hbound t htmem
    exact ⟨canonical_tsLe_chronLe hct hc2 hle2,
      fun hne => canonical_tsLe_chronLe hct hc1 (hle1 hne)⟩

/-- Witness for C9: a three-snapshot store whose selector picks 11:00 and
12:00 over 10:00. -/
theorem C9_witness :
    (df9.map Row.timestamp).all isCanonicalTs = true ∧
    selectPair df9 = some (t11, t12) ∧ t11 ≠ t12 ∧ chronLt t11 t12 :=
  ⟨by decide, by decide,
    (C9_selector_two_most_recent df9 t11 t12 (by decide) (by decide)).1,
    (C9_selector_two_most_recent df9 t11 t12 (by decide) (by decide)).2.1⟩

end FPL
